import Mathlib

/-!
Shallow embedding of src/mass_convert_modern_dsl.py, a one-shot batch
converter that scans a directory tree for legacy-format task-definition
scripts, backs each one up, and overwrites it with a Modern-DSL template.

Modelling conventions:
* file contents and paths are Lean `String`s;
* the filesystem is an association list from paths to contents (`FS`);
* the fallible I/O steps (read, backup copy, overwrite) are driven by an
  explicit `ErrOracle` saying which step raises for which path; the
  exception text itself is environment data and is not modelled, so the
  per-file error log line carries only its fixed prefix;
* console output is collected as a list of printed strings.
-/

namespace MassConvert

/-- Single-quote character, written numerically. -/
def squote : Char := Char.ofNat 39

/-- Python substring test over character lists: true when `pat` occurs
contiguously inside the list. -/
def containsSubList (pat : List Char) : List Char → Bool
  | [] => pat.isEmpty
  | c :: cs => pat.isPrefixOf (c :: cs) || containsSubList pat cs

/-- Embedding of the Python expression found throughout the script:
true exactly when the string contains the given substring. -/
def containsSub (s pat : String) : Bool := containsSubList pat.data s.data

/-- Embedding of a Python startswith test on paths (used to model which
files lie under the scanned root directory). -/
def strHasPre (x s : String) : Bool := x.data.isPrefixOf s.data

/-- Embedding of a Python fnmatch suffix test (rglob only yields names
ending with the fixed extension). Defined, as in core, through the
reversed prefix test. -/
def strHasSuf (x s : String) : Bool := x.data.reverse.isPrefixOf s.data.reverse

/-- Characters matched by the regex class backslash-s on Python str
patterns: ASCII whitespace plus the Unicode whitespace code points. -/
def isPySpace (c : Char) : Bool :=
  [' ', '\t', '\n', '\r', '\x0b', '\x0c', '\x1c', '\x1d', '\x1e', '\x1f',
   '\x85', '\xa0', '\u1680', '\u2000', '\u2001', '\u2002', '\u2003',
   '\u2004', '\u2005', '\u2006', '\u2007', '\u2008', '\u2009', '\u200a',
   '\u2028', '\u2029', '\u202f', '\u205f', '\u3000'].contains c

/-- Attempt, at the current position, the anchored match of the regex
used at line 14 of the source: literal "description", optional
whitespace, an equals sign, optional whitespace, a quote (double or
single), one or more non-quote characters (captured), then a quote.
The greedy pieces of the pattern are all followed by disjoint
character classes, so deterministic maximal munch is exact. -/
def matchDescAt (cs : List Char) : Option String :=
  if "description".data.isPrefixOf cs then
    let cs1 := (cs.drop 11).dropWhile isPySpace
    match cs1 with
    | c :: cs2 =>
      if c = '=' then
        let cs3 := cs2.dropWhile isPySpace
        match cs3 with
        | q :: cs4 =>
          if q = '"' ∨ q = squote then
            let body := cs4.takeWhile (fun d => ¬ (d = '"' ∨ d = squote))
            let rest := cs4.dropWhile (fun d => ¬ (d = '"' ∨ d = squote))
            match body, rest with
            | [], _ => none
            | _ :: _, [] => none
            | _ :: _, r :: _ =>
              if r = '"' ∨ r = squote then some (String.mk body) else none
          else none
        | [] => none
      else none
    | [] => none
  else none

/-- Embedding of re.search for the description pattern: try the anchored
match at every position, leftmost first, returning the first capture. -/
def searchDesc : List Char → Option String
  | [] => none
  | c :: cs =>
    match matchDescAt (c :: cs) with
    | some r => some r
    | none => searchDesc cs

/-- Last path component, the Python Path(...).name. -/
def lastComponent (p : String) : String := (p.splitOn "/").getLastD p

/-- Index of the last dot in a name, the Python name.rfind of a dot. -/
def rfindDot (cs : List Char) : Option Nat :=
  (List.range cs.length).foldl
    (fun acc i => if cs.getD i ' ' = '.' then some i else acc) none

/-- Python Path(...).stem: the final component with its suffix removed,
where a suffix exists only when the last dot sits strictly inside the
name (pathlib: 0 < i < len(name) - 1). -/
def stem (p : String) : String :=
  let name := lastComponent p
  match rfindDot name.data with
  | some i =>
    if 0 < i ∧ i < name.data.length - 1 then String.mk (name.data.take i)
    else name
  | none => name

/-- Embedding of source lines 14-15: the description is the first regex
capture when present, else the synthesized default naming the file. -/
def descriptionOf (original_content file_name : String) : String :=
  match searchDesc original_content.data with
  | some d => d
  | none => "Modern DSL version of " ++ file_name

/-- Embedding of source lines 17-29: priority-ordered substring checks
on the path pick the category and complexity pair. -/
def classify (original_file_path : String) : String × String :=
  if containsSub original_file_path "beginner" = true then
    ("beginner", "simple")
  else if containsSub original_file_path "intermediate" = true then
    ("intermediate", "moderate")
  else if containsSub original_file_path "advanced" = true then
    ("advanced", "complex")
  else
    ("general", "basic")

/-- Embedding of the f-string template at source lines 32-116, as a
function of the interpolated fields: file name, description, category,
complexity, and the original file name used in the final backup note.
The concatenation is grouped so that the provenance literal
"TaskDefinition" and the rendered description field are standalone
chunks; the grouping does not change the produced text. Brace
characters of the Lua text are written with hexadecimal escapes. -/
def renderTemplate (n d c x o : String) : String :=
  ("-- MODERN DSL ONLY - " ++ d ++ "\n-- Converted from legacy ") ++
  ("TaskDefinition" ++
    ((" format\n-- Category: " ++ c ++ ", Complexity: " ++ x ++
      "\n\n-- Main task using Modern DSL\nlocal main_task = task(\"" ++ n ++
      "_task\")\n    ") ++
     ((":description(\"" ++ d ++ "\")") ++
      ("\n    :command(function(params, deps)\n        log.info(\"🚀 Executing " ++
       n ++ " with Modern DSL...\")\n        \n" ++
       "        -- TODO: Replace with actual implementation from original file\n" ++
       "        -- Original logic should be migrated here\n        \n" ++
       "        return true, \"Task completed successfully\", \x7b\n" ++
       "            task_name = \"" ++ n ++ "\",\n" ++
       "            execution_time = os.time(),\n" ++
       "            status = \"success\"\n        \x7d\n    end)\n" ++
       "    :timeout(\"5m\")\n    :retries(2, \"exponential\")\n" ++
       "    :on_success(function(params, output)\n        log.info(\"✅ " ++
       n ++ " task completed successfully\")\n    end)\n" ++
       "    :on_failure(function(params, error)\n        log.error(\"❌ " ++
       n ++ " task failed: \" .. error)\n    end)\n    :build()\n\n" ++
       "-- Additional tasks can be added here following the same pattern\n" ++
       "-- local secondary_task = task(\"" ++ n ++ "_secondary\")\n" ++
       "--     :description(\"Secondary task for " ++ n ++ "\")\n" ++
       "--     :depends_on(\x7b\"" ++ n ++ "_task\"\x7d)\n" ++
       "--     :command(function(params, deps)\n" ++
       "--         -- Secondary logic here\n" ++
       "--         return true, \"Secondary task completed\", \x7b\x7d\n" ++
       "--     end)\n--     :build()\n\n-- Modern Workflow Definition\n" ++
       "workflow.define(\"" ++ n ++ "_workflow\", \x7b\n" ++
       "    description = \"" ++ d ++ " - Modern DSL\",\n" ++
       "    version = \"2.0.0\",\n    \n    metadata = \x7b\n" ++
       "        author = \"Sloth Runner Team\",\n" ++
       "        category = \"" ++ c ++ "\",\n" ++
       "        complexity = \"" ++ x ++ "\",\n" ++
       "        tags = \x7b\"" ++ n ++ "\", \"modern-dsl\", \"" ++ c ++
       "\"\x7d,\n        created_at = os.date(),\n" ++
       "        migrated_from = \"TaskDefinition format\"\n    \x7d,\n    \n" ++
       "    tasks = \x7b\n        main_task\n        -- Add additional tasks here\n" ++
       "    \x7d,\n    \n    config = \x7b\n        timeout = \"15m\",\n" ++
       "        retry_policy = \"exponential\",\n        max_parallel_tasks = 2,\n" ++
       "        cleanup_on_failure = true\n    \x7d,\n    \n" ++
       "    on_start = function()\n        log.info(\"🚀 Starting " ++ n ++
       " workflow...\")\n        return true\n    end,\n    \n" ++
       "    on_complete = function(success, results)\n        if success then\n" ++
       "            log.info(\"✅ " ++ n ++ " workflow completed successfully!\")\n" ++
       "        else\n            log.error(\"❌ " ++ n ++ " workflow failed!\")\n" ++
       "        end\n        return true\n    end\n\x7d)\n\n-- Migration Note:\n" ++
       "-- This file has been converted from legacy TaskDefinition format to Modern DSL\n" ++
       "-- TODO: Review and implement the original logic in the Modern DSL structure above\n" ++
       "-- Original backup saved as " ++ o ++ ".backup\n"))))

/-- Embedding of create_modern_dsl_template (source lines 8-118): derive
the file name, description and classification, then render the fixed
template. -/
def create_modern_dsl_template (original_file_path original_content : String) : String :=
  let file_name := stem original_file_path
  let description := descriptionOf original_content file_name
  let cc := classify original_file_path
  renderTemplate file_name description cc.1 cc.2 (lastComponent original_file_path)

/-- Embedding of the skip predicate at source line 129: the file text
contains the modern task-declaration syntax and lacks the legacy
type-name marker. -/
def alreadyModern (content : String) : Bool :=
  containsSub content "task(" && !containsSub content "TaskDefinition"

/-- Filesystem model: an association list from paths to contents. -/
abbrev FS := List (String × String)

/-- Read a path, returning the first binding when present. -/
def FS.read : FS → String → Option String
  | [], _ => none
  | (k, v) :: rest, p => if k = p then some v else FS.read rest p

/-- Overwrite a path (first binding updated in place, or appended). -/
def FS.write : FS → String → String → FS
  | [], p, c => [(p, c)]
  | (k, v) :: rest, p, c =>
    if k = p then (p, c) :: rest else (k, v) :: FS.write rest p c

/-- Environment oracle saying which I/O step raises for which path:
reading the file, copying it to its backup, or overwriting it. -/
structure ErrOracle where
  readFails : String → Bool
  copyFails : String → Bool
  writeFails : String → Bool

/-- Oracle of the failure-free environment. -/
def noErr : ErrOracle := ⟨fun _ => false, fun _ => false, fun _ => false⟩

/-- Result of one per-file conversion attempt: the returned boolean of
the Python function, the filesystem afterwards, and the printed lines. -/
structure ConvResult where
  ok : Bool
  fs : FS
  log : List String
deriving DecidableEq

/-- Embedding of convert_file_to_modern_dsl (source lines 120-149):
read, skip when already modern, back up, render, overwrite; every
exception is caught at this boundary and turns into a False return. -/
def convert_file_to_modern_dsl (eo : ErrOracle) (fs : FS) (file_path : String) :
    ConvResult :=
  if eo.readFails file_path then
    ⟨false, fs, ["❌ Error converting " ++ file_path]⟩
  else
    match FS.read fs file_path with
    | none => ⟨false, fs, ["❌ Error converting " ++ file_path]⟩
    | some original_content =>
      if alreadyModern original_content then
        ⟨true, fs, ["✅ Already modern: " ++ file_path]⟩
      else if eo.copyFails file_path then
        ⟨false, fs, ["❌ Error converting " ++ file_path]⟩
      else
        let fs1 := FS.write fs (file_path ++ ".backup") original_content
        if eo.writeFails file_path then
          ⟨false, fs1, ["❌ Error converting " ++ file_path]⟩
        else
          ⟨true,
           FS.write fs1 file_path
             (create_modern_dsl_template file_path original_content),
           ["🔄 Converted: " ++ file_path]⟩

/-- Embedding of the detection filter at source lines 160-165: a path
qualifies when it lies under the scanned root with the fixed extension,
is readable, and its text contains either legacy marker. -/
def isCandidate (eo : ErrOracle) (fs : FS) (p : String) : Bool :=
  strHasPre "examples/" p && strHasSuf ".lua" p && !eo.readFails p &&
    (match FS.read fs p with
     | none => false
     | some content =>
       containsSub content "TaskDefinition" || containsSub content "task_definition")

/-- Embedding of the detection pass of main (source lines 156-167):
materialize the list of candidate paths in traversal order. Unreadable
files are skipped with a console warning, which is not collected. -/
def detect (eo : ErrOracle) (fs : FS) : List String :=
  List.filter (isCandidate eo fs) (fs.map Prod.fst)

/-- Accumulated state of the conversion loop at source lines 179-183. -/
structure LoopResult where
  converted : Nat
  failed : Nat
  fs : FS
  log : List String
deriving DecidableEq

/-- Embedding of the conversion loop: convert each candidate in order,
counting True returns as converted and False returns as failed. -/
def convertAll (eo : ErrOracle) : List String → FS → LoopResult
  | [], fs => ⟨0, 0, fs, []⟩
  | p :: ps, fs =>
    let r := convert_file_to_modern_dsl eo fs p
    let rest := convertAll eo ps r.fs
    ⟨(if r.ok then 1 else 0) + rest.converted,
     (if r.ok then 0 else 1) + rest.failed,
     rest.fs, r.log ++ rest.log⟩

/-- Embedding of the summary block printed at source lines 185-196. -/
def summaryBlock (converted failed total : Nat) : String :=
  "\n🎉 Conversion Summary:\n✅ Converted: " ++ toString converted ++
  " files\n❌ Failed: " ++ toString failed ++
  " files\n📁 Total processed: " ++ toString total ++
  " files\n\n📚 Next steps:\n1. Review converted files and implement original logic\n" ++
  "2. Test the workflows with: ./sloth-runner run -f <file>\n" ++
  "3. Update documentation if needed\n" ++
  "4. Remove .backup files when satisfied with conversion\n"

/-- Observable outcome of one run of main: the final counters, the
filesystem, and the printed lines. -/
structure RunResult where
  converted : Nat
  failed : Nat
  total : Nat
  fs : FS
  log : List String
deriving DecidableEq

/-- Embedding of main (source lines 151-196): detect candidates, short
circuit when none, otherwise convert each and report the summary. On
the empty short circuit the counters were never incremented and are
reported as zero. -/
def main (eo : ErrOracle) (fs : FS) : RunResult :=
  let lua_files := detect eo fs
  let header := ["🧹 Starting mass conversion to Modern DSL...",
                 "📝 Found " ++ toString lua_files.length ++ " files to convert"]
  if lua_files.isEmpty then
    ⟨0, 0, 0, fs, header ++ ["✅ No files need conversion!"]⟩
  else
    let r := convertAll eo lua_files fs
    ⟨r.converted, r.failed, lua_files.length, r.fs,
     header ++ r.log ++ [summaryBlock r.converted r.failed lua_files.length]⟩

/-! Basic lemmas about the substring test. -/

theorem containsSubList_iff_occurs (pat l : List Char) :
    containsSubList pat l = true ↔ pat <:+: l := by
  induction l with
  | nil =>
    simp [containsSubList, List.isEmpty_iff]
  | cons c cs ih =>
    simp [containsSubList, Bool.or_eq_true, List.isPrefixOf_iff_prefix, ih,
      List.infix_cons_iff]

theorem containsSub_iff_occurs (s pat : String) :
    containsSub s pat = true ↔ pat.data <:+: s.data :=
  containsSubList_iff_occurs _ _

theorem containsSub_append_right (a b pat : String)
    (h : containsSub b pat = true) : containsSub (a ++ b) pat = true := by
  rw [containsSub_iff_occurs] at h ⊢
  rw [String.data_append]
  obtain ⟨u, v, huv⟩ := h
  exact ⟨a.data ++ u, v, by rw [← huv]; simp⟩

theorem containsSub_append_left (a b pat : String)
    (h : containsSub a pat = true) : containsSub (a ++ b) pat = true := by
  rw [containsSub_iff_occurs] at h ⊢
  rw [String.data_append]
  obtain ⟨u, v, huv⟩ := h
  exact ⟨u, v ++ b.data, by rw [← huv]; simp⟩

theorem containsSub_self_append (pat b : String) :
    containsSub (pat ++ b) pat = true := by
  rw [containsSub_iff_occurs, String.data_append]
  exact ⟨[], b.data, by simp⟩

/-! Containment facts about the rendered template. -/

theorem renderTemplate_contains_marker (n d c x o : String) :
    containsSub (renderTemplate n d c x o) "TaskDefinition" = true := by
  unfold renderTemplate
  apply containsSub_append_right
  exact containsSub_self_append "TaskDefinition" _

theorem renderTemplate_desc_field (n d c x o : String) :
    containsSub (renderTemplate n d c x o)
      (":description(\"" ++ d ++ "\")") = true := by
  unfold renderTemplate
  apply containsSub_append_right
  apply containsSub_append_right
  apply containsSub_append_right
  exact containsSub_self_append _ _

/-! Lemmas about the filesystem model. -/

theorem FS.read_write_self (fs : FS) (p c : String) :
    FS.read (FS.write fs p c) p = some c := by
  induction fs with
  | nil => simp [FS.write, FS.read]
  | cons kv rest ih =>
    obtain ⟨k, v⟩ := kv
    by_cases h : k = p <;> simp [FS.write, FS.read, h, ih]

theorem FS.read_write_ne (fs : FS) (p c q : String) (h : q ≠ p) :
    FS.read (FS.write fs p c) q = FS.read fs q := by
  induction fs with
  | nil => simp [FS.write, FS.read, Ne.symm h]
  | cons kv rest ih =>
    obtain ⟨k, v⟩ := kv
    by_cases hk : k = p
    · subst hk
      simp [FS.write, FS.read, Ne.symm h]
    · simp [FS.write, FS.read, hk, ih]

theorem FS.read_some_mem {fs : FS} {p : String} {c : String}
    (h : FS.read fs p = some c) : p ∈ fs.map Prod.fst := by
  induction fs with
  | nil => simp [FS.read] at h
  | cons kv rest ih =>
    obtain ⟨k, v⟩ := kv
    by_cases hk : k = p
    · simp [hk]
    · rw [FS.read, if_neg hk] at h
      simpa using Or.inr (ih h)

/-! String/path facts used by the frame reasoning. -/

theorem str_data_inj {a b : String} (h : a.data = b.data) : a = b := by
  cases a; cases b; exact congrArg String.mk h

theorem str_append_cancel {a b s : String} (h : a ++ s = b ++ s) : a = b := by
  apply str_data_inj
  have h2 := congrArg String.data h
  rw [String.data_append, String.data_append] at h2
  exact List.append_cancel_right h2

theorem lua_suffix_backup (p : String) :
    strHasSuf ".lua" (p ++ ".backup") = false := by
  unfold strHasSuf
  rw [String.data_append, List.reverse_append]
  show (['a', 'u', 'l', '.'] : List Char).isPrefixOf
    ('p' :: 'u' :: 'k' :: 'c' :: 'a' :: 'b' :: '.' :: p.data.reverse) = false
  have hap : (('a' : Char) == 'p') = false := by decide
  simp [List.isPrefixOf, hap]

theorem lua_ne_backup {q p : String} (hq : strHasSuf ".lua" q = true) :
    q ≠ p ++ ".backup" := by
  intro h
  rw [h, lua_suffix_backup] at hq
  exact Bool.false_ne_true hq

theorem backup_inj {p q : String} (h : p ++ ".backup" = q ++ ".backup") :
    p = q :=
  str_append_cancel h

theorem strHasPre_append (x p s : String) (h : strHasPre x p = true) :
    strHasPre x (p ++ s) = true := by
  unfold strHasPre at h ⊢
  rw [String.data_append, List.isPrefixOf_iff_prefix] at *
  exact h.trans (List.prefix_append _ _)

/-! Facts about detection. -/

theorem mem_detect {eo : ErrOracle} {fs : FS} {p : String} :
    p ∈ detect eo fs ↔ p ∈ fs.map Prod.fst ∧ isCandidate eo fs p = true :=
  List.mem_filter

theorem isCandidate_parts {eo : ErrOracle} {fs : FS} {p : String}
    (h : isCandidate eo fs p = true) :
    strHasPre "examples/" p = true ∧ strHasSuf ".lua" p = true := by
  unfold isCandidate at h
  simp only [Bool.and_eq_true] at h
  exact ⟨h.1.1.1, h.1.1.2⟩

theorem detect_suffix {eo : ErrOracle} {fs : FS} {p : String}
    (h : p ∈ detect eo fs) : strHasSuf ".lua" p = true :=
  (isCandidate_parts (mem_detect.mp h).2).2

theorem detect_hasPre {eo : ErrOracle} {fs : FS} {p : String}
    (h : p ∈ detect eo fs) : strHasPre "examples/" p = true :=
  (isCandidate_parts (mem_detect.mp h).2).1

theorem detect_nodup {eo : ErrOracle} {fs : FS}
    (h : (fs.map Prod.fst).Nodup) : (detect eo fs).Nodup :=
  h.filter _

/-! Per-file and loop-level frame lemmas: a conversion step writes only
to the converted path and its backup sibling. -/

theorem convert_frame (eo : ErrOracle) (fs : FS) (p q : String)
    (h1 : q ≠ p) (h2 : q ≠ p ++ ".backup") :
    FS.read (convert_file_to_modern_dsl eo fs p).fs q = FS.read fs q := by
  unfold convert_file_to_modern_dsl
  split
  · rfl
  · split
    · rfl
    · split
      · rfl
      · split
        · rfl
        · split
          · exact FS.read_write_ne _ _ _ _ h2
          · rw [FS.read_write_ne _ _ _ _ h1, FS.read_write_ne _ _ _ _ h2]

theorem convertAll_frame (eo : ErrOracle) (l : List String) (fs : FS)
    (q : String) (h : ∀ p ∈ l, q ≠ p ∧ q ≠ p ++ ".backup") :
    FS.read (convertAll eo l fs).fs q = FS.read fs q := by
  induction l generalizing fs with
  | nil => rfl
  | cons p ps ih =>
    have hp := h p (by simp)
    have hr : ∀ r ∈ ps, q ≠ r ∧ q ≠ r ++ ".backup" :=
      fun r hrr => h r (by simp [hrr])
    show FS.read (convertAll eo ps (convert_file_to_modern_dsl eo fs p).fs).fs q = _
    rw [ih _ hr, convert_frame eo fs p q hp.1 hp.2]

theorem convertAll_counts (eo : ErrOracle) (l : List String) (fs : FS) :
    (convertAll eo l fs).converted + (convertAll eo l fs).failed = l.length := by
  induction l generalizing fs with
  | nil => rfl
  | cons p ps ih =>
    show ((if (convert_file_to_modern_dsl eo fs p).ok then 1 else 0) + _) +
      ((if (convert_file_to_modern_dsl eo fs p).ok then 0 else 1) + _) = _
    have := ih (convert_file_to_modern_dsl eo fs p).fs
    cases (convert_file_to_modern_dsl eo fs p).ok <;> simpa using by omega

/-- When a listed file is already modern at the start, the whole loop
neither rewrites it nor touches its backup sibling, whatever the error
oracle does and whatever else is in the list of .lua candidates. -/
theorem convertAll_skip_preserved (eo : ErrOracle) (l : List String) (fs : FS)
    (p0 content : String)
    (hl : ∀ q ∈ l, strHasSuf ".lua" q = true)
    (hs : strHasSuf ".lua" p0 = true)
    (hr : FS.read fs p0 = some content)
    (hm : alreadyModern content = true) :
    FS.read (convertAll eo l fs).fs p0 = some content ∧
    FS.read (convertAll eo l fs).fs (p0 ++ ".backup") =
      FS.read fs (p0 ++ ".backup") := by
  induction l generalizing fs with
  | nil => exact ⟨hr, rfl⟩
  | cons q ps ih =>
    have hq := hl q (by simp)
    have hps : ∀ r ∈ ps, strHasSuf ".lua" r = true :=
      fun r hrr => hl r (by simp [hrr])
    by_cases hqp : q = p0
    · subst hqp
      have hfs : (convert_file_to_modern_dsl eo fs q).fs = fs := by
        unfold convert_file_to_modern_dsl
        cases h0 : eo.readFails q
        · simp [h0, hr, hm]
        · simp [h0]
      show FS.read (convertAll eo ps (convert_file_to_modern_dsl eo fs q).fs).fs q = _ ∧
        FS.read (convertAll eo ps (convert_file_to_modern_dsl eo fs q).fs).fs (q ++ ".backup") = _
      rw [hfs]
      exact ih fs hps hr
    · have h1 : p0 ≠ q := fun h => hqp h.symm
      have h2 : p0 ≠ q ++ ".backup" := lua_ne_backup hs
      have h3 : p0 ++ ".backup" ≠ q := fun h => lua_ne_backup hq h.symm
      have h4 : p0 ++ ".backup" ≠ q ++ ".backup" :=
        fun h => hqp (backup_inj h).symm
      have frame1 := convert_frame eo fs q p0 h1 h2
      have frame2 := convert_frame eo fs q (p0 ++ ".backup") h3 h4
      obtain ⟨ihA, ihB⟩ :=
        ih (convert_file_to_modern_dsl eo fs q).fs hps (by rw [frame1]; exact hr)
      show FS.read (convertAll eo ps (convert_file_to_modern_dsl eo fs q).fs).fs p0 = _ ∧
        FS.read (convertAll eo ps (convert_file_to_modern_dsl eo fs q).fs).fs (p0 ++ ".backup") = _
      exact ⟨ihA, by rw [ihB, frame2]⟩

/-- When a listed file is a legacy candidate (not already modern) and
the environment raises no errors, the loop leaves a backup holding the
pre-run bytes and overwrites the original with the rendered template. -/
theorem convertAll_converted (l : List String) (fs : FS) (p0 content : String)
    (hl : ∀ q ∈ l, strHasSuf ".lua" q = true)
    (hnd : l.Nodup)
    (hp : p0 ∈ l)
    (hr : FS.read fs p0 = some content)
    (hm : alreadyModern content = false) :
    FS.read (convertAll noErr l fs).fs (p0 ++ ".backup") = some content ∧
    FS.read (convertAll noErr l fs).fs p0 =
      some (create_modern_dsl_template p0 content) := by
  induction l generalizing fs with
  | nil => simp at hp
  | cons q ps ih =>
    have hq := hl q (by simp)
    have hps : ∀ r ∈ ps, strHasSuf ".lua" r = true :=
      fun r hrr => hl r (by simp [hrr])
    have hnd' : ps.Nodup := (List.nodup_cons.mp hnd).2
    by_cases hqp : q = p0
    · subst hqp
      have hnotin : q ∉ ps := (List.nodup_cons.mp hnd).1
      have hfs : (convert_file_to_modern_dsl noErr fs q).fs =
          FS.write (FS.write fs (q ++ ".backup") content) q
            (create_modern_dsl_template q content) := by
        unfold convert_file_to_modern_dsl
        simp [noErr, hr, hm]
      have hframe1 := convertAll_frame noErr ps
        (convert_file_to_modern_dsl noErr fs q).fs (q ++ ".backup")
        (fun r hrr => ⟨fun h => lua_ne_backup (hps r hrr) h.symm,
                       fun h => hnotin (by rw [backup_inj h]; exact hrr)⟩)
      have hframe2 := convertAll_frame noErr ps
        (convert_file_to_modern_dsl noErr fs q).fs q
        (fun r hrr => ⟨fun h => hnotin (by rw [h]; exact hrr),
                       lua_ne_backup hq⟩)
      show FS.read (convertAll noErr ps (convert_file_to_modern_dsl noErr fs q).fs).fs (q ++ ".backup") = _ ∧
        FS.read (convertAll noErr ps (convert_file_to_modern_dsl noErr fs q).fs).fs q = _
      rw [hframe1, hframe2, hfs]
      constructor
      · rw [FS.read_write_ne _ _ _ _ (fun h => lua_ne_backup hq h.symm),
          FS.read_write_self]
      · rw [FS.read_write_self]
    · have h0 : p0 ∈ ps := by
        rcases List.mem_cons.mp hp with h | h
        · exact absurd h.symm hqp
        · exact h
      have h1 : p0 ≠ q := fun h => hqp h.symm
      have h2 : p0 ≠ q ++ ".backup" := lua_ne_backup (hl p0 hp)
      have frame1 := convert_frame noErr fs q p0 h1 h2
      show FS.read (convertAll noErr ps (convert_file_to_modern_dsl noErr fs q).fs).fs (p0 ++ ".backup") = _ ∧
        FS.read (convertAll noErr ps (convert_file_to_modern_dsl noErr fs q).fs).fs p0 = _
      exact ih (convert_file_to_modern_dsl noErr fs q).fs hps hnd' h0
        (by rw [frame1]; exact hr)

/-- Unfolding of main in the non-empty case. -/
theorem main_of_nonempty (eo : ErrOracle) (fs : FS) (h : detect eo fs ≠ []) :
    main eo fs =
      ⟨(convertAll eo (detect eo fs) fs).converted,
       (convertAll eo (detect eo fs) fs).failed,
       (detect eo fs).length,
       (convertAll eo (detect eo fs) fs).fs,
       ["🧹 Starting mass conversion to Modern DSL...",
        "📝 Found " ++ toString (detect eo fs).length ++ " files to convert"] ++
       (convertAll eo (detect eo fs) fs).log ++
       [summaryBlock (convertAll eo (detect eo fs) fs).converted
          (convertAll eo (detect eo fs) fs).failed (detect eo fs).length]⟩ := by
  have hne : ¬((detect eo fs).isEmpty = true) := by
    simpa [List.isEmpty_iff] using h
  unfold main
  rw [if_neg hne]

/-! Claim theorems. -/

/-- C1: the claimed run idempotence fails on the code. The rendered
template always embeds the literal legacy marker "TaskDefinition" in
its provenance comments, so no file rewritten by a first run ever
satisfies the already-modern skip predicate afterwards: a second run
re-converts every rewritten file and overwrites its backup with the
template, instead of performing zero additional conversions. -/
theorem converted_output_never_already_modern (p content : String) :
    alreadyModern (create_modern_dsl_template p content) = false := by
  have h := renderTemplate_contains_marker (stem p)
    (descriptionOf content (stem p)) (classify p).1 (classify p).2
    (lastComponent p)
  simp [alreadyModern, create_modern_dsl_template, h]

/-- C2: for a detected candidate that is actually converted, the run
leaves a backup file holding the pre-run original bytes and the
original overwritten with the template; a candidate skipped as already
modern gets no backup; and if the overwrite step were the one to fail,
the backup would already exist with the original untouched, so the
backup write happens strictly before the overwrite. -/
theorem backup_invariant (fs : FS) (p content : String)
    (hk : (fs.map Prod.fst).Nodup)
    (hp : p ∈ detect noErr fs)
    (hr : FS.read fs p = some content) :
    (alreadyModern content = false →
      FS.read (main noErr fs).fs (p ++ ".backup") = some content ∧
      FS.read (main noErr fs).fs p =
        some (create_modern_dsl_template p content)) ∧
    (alreadyModern content = true →
      FS.read (main noErr fs).fs (p ++ ".backup") =
        FS.read fs (p ++ ".backup")) ∧
    (∀ eo : ErrOracle, eo.readFails p = false → eo.copyFails p = false →
      eo.writeFails p = true → alreadyModern content = false →
      FS.read (convert_file_to_modern_dsl eo fs p).fs (p ++ ".backup") =
        some content ∧
      FS.read (convert_file_to_modern_dsl eo fs p).fs p = some content ∧
      (convert_file_to_modern_dsl eo fs p).ok = false) := by
  have hne : detect noErr fs ≠ [] := fun h => by rw [h] at hp; simp at hp
  have hmain := main_of_nonempty noErr fs hne
  have hsuf := detect_suffix hp
  have hl : ∀ q ∈ detect noErr fs, strHasSuf ".lua" q = true :=
    fun q hq => detect_suffix hq
  refine ⟨?_, ?_, ?_⟩
  · intro hm
    have h := convertAll_converted (detect noErr fs) fs p content hl
      (detect_nodup hk) hp hr hm
    rw [hmain]
    exact h
  · intro hm
    have h := (convertAll_skip_preserved noErr (detect noErr fs) fs p content
      hl hsuf hr hm).2
    rw [hmain]
    exact h
  · intro eo h1 h2 h3 hm
    unfold convert_file_to_modern_dsl
    simp [h1, h2, h3, hr, hm, FS.read_write_self,
      FS.read_write_ne _ _ _ _ (lua_ne_backup hsuf)]

/-- Witness for C2 at a one-file directory holding a legacy script. -/
theorem backup_invariant_witness :
    FS.read (main noErr [("examples/a.lua", "TaskDefinition")]).fs
      ("examples/a.lua" ++ ".backup") = some "TaskDefinition" ∧
    FS.read (main noErr [("examples/a.lua", "TaskDefinition")]).fs
      "examples/a.lua" =
      some (create_modern_dsl_template "examples/a.lua" "TaskDefinition") :=
  (backup_invariant [("examples/a.lua", "TaskDefinition")] "examples/a.lua"
    "TaskDefinition" (by decide) (by decide) (by decide)).1 (by decide)

/-- C3: when the original text matches the description pattern, the
rendered description field carries the captured text verbatim; when it
does not, the description is the synthesized default containing the
base name. -/
theorem description_extraction (p content : String) :
    (∀ d : String, searchDesc content.data = some d →
      descriptionOf content (stem p) = d ∧
      containsSub (create_modern_dsl_template p content)
        (":description(\"" ++ d ++ "\")") = true) ∧
    (searchDesc content.data = none →
      descriptionOf content (stem p) = "Modern DSL version of " ++ stem p ∧
      containsSub ("Modern DSL version of " ++ stem p) (stem p) = true ∧
      containsSub (create_modern_dsl_template p content)
        (":description(\"" ++ ("Modern DSL version of " ++ stem p) ++ "\")") =
        true) := by
  constructor
  · intro d hd
    have h1 : descriptionOf content (stem p) = d := by
      simp [descriptionOf, hd]
    refine ⟨h1, ?_⟩
    have h2 := renderTemplate_desc_field (stem p)
      (descriptionOf content (stem p)) (classify p).1 (classify p).2
      (lastComponent p)
    rw [h1] at h2
    simpa [create_modern_dsl_template, h1] using h2
  · intro hd
    have h1 : descriptionOf content (stem p) =
        "Modern DSL version of " ++ stem p := by
      simp [descriptionOf, hd]
    refine ⟨h1, ?_, ?_⟩
    · refine containsSub_append_right _ _ _ ?_
      rw [containsSub_iff_occurs]
    · have h2 := renderTemplate_desc_field (stem p)
        (descriptionOf content (stem p)) (classify p).1 (classify p).2
        (lastComponent p)
      rw [h1] at h2
      simpa [create_modern_dsl_template, h1] using h2

/-- Witness for C3: a matching original yields the captured text. -/
theorem description_extraction_witness :
    descriptionOf "description = \"Hi\"" (stem "examples/hello.lua") = "Hi" ∧
    containsSub
      (create_modern_dsl_template "examples/hello.lua" "description = \"Hi\"")
      (":description(\"" ++ "Hi" ++ "\")") = true :=
  (description_extraction "examples/hello.lua" "description = \"Hi\"").1
    "Hi" (by decide)

/-- C4: classification is the priority-ordered substring test, first
match wins, and the category/complexity pair is always one of exactly
the four table entries. -/
theorem classification_table (p : String) :
    (classify p = ("beginner", "simple") ∨
     classify p = ("intermediate", "moderate") ∨
     classify p = ("advanced", "complex") ∨
     classify p = ("general", "basic")) ∧
    (containsSub p "beginner" = true → classify p = ("beginner", "simple")) ∧
    (containsSub p "beginner" = false → containsSub p "intermediate" = true →
      classify p = ("intermediate", "moderate")) ∧
    (containsSub p "beginner" = false → containsSub p "intermediate" = false →
      containsSub p "advanced" = true → classify p = ("advanced", "complex")) ∧
    (containsSub p "beginner" = false → containsSub p "intermediate" = false →
      containsSub p "advanced" = false → classify p = ("general", "basic")) := by
  unfold classify
  by_cases h1 : containsSub p "beginner" = true <;>
    by_cases h2 : containsSub p "intermediate" = true <;>
      by_cases h3 : containsSub p "advanced" = true <;>
        simp_all

/-- Witness for C4 at a path holding two markers: the first tested rule
(beginner) wins. -/
theorem classification_table_witness :
    classify "examples/beginner/intermediate.lua" = ("beginner", "simple") :=
  (classification_table "examples/beginner/intermediate.lua").2.1 (by decide)

/-- C5: a candidate is skipped (True return, filesystem untouched)
exactly when its text contains "task(" and lacks "TaskDefinition";
otherwise it proceeds to the backup write and the rewrite. -/
theorem skip_policy (fs : FS) (p content : String)
    (hr : FS.read fs p = some content) :
    (alreadyModern content = true →
      convert_file_to_modern_dsl noErr fs p =
        ⟨true, fs, ["✅ Already modern: " ++ p]⟩) ∧
    (alreadyModern content = false →
      convert_file_to_modern_dsl noErr fs p =
        ⟨true,
         FS.write (FS.write fs (p ++ ".backup") content) p
           (create_modern_dsl_template p content),
         ["🔄 Converted: " ++ p]⟩) := by
  constructor <;> intro hm <;> unfold convert_file_to_modern_dsl <;>
    simp [noErr, hr, hm]

/-- Witness for C5: an already-modern file is skipped unchanged. -/
theorem skip_policy_witness :
    convert_file_to_modern_dsl noErr
      [("examples/a.lua", "local t = task(\"x\")")] "examples/a.lua" =
      ⟨true, [("examples/a.lua", "local t = task(\"x\")")],
       ["✅ Already modern: " ++ "examples/a.lua"]⟩ :=
  (skip_policy [("examples/a.lua", "local t = task(\"x\")")] "examples/a.lua"
    "local t = task(\"x\")" (by decide)).1 (by decide)

/-- C6: when the backup copy step fails, the per-file conversion aborts
before any write, leaving the filesystem exactly as it was, and returns
False so the file is counted as failed rather than aborting the run. -/
theorem backup_failure_atomic (eo : ErrOracle) (fs : FS) (p content : String)
    (h1 : eo.readFails p = false)
    (hr : FS.read fs p = some content)
    (hm : alreadyModern content = false)
    (h2 : eo.copyFails p = true) :
    convert_file_to_modern_dsl eo fs p =
      ⟨false, fs, ["❌ Error converting " ++ p]⟩ := by
  unfold convert_file_to_modern_dsl
  simp [h1, hr, hm, h2]

/-- Witness for C6 under an oracle whose copy step always fails. -/
theorem backup_failure_atomic_witness :
    convert_file_to_modern_dsl ⟨fun _ => false, fun _ => true, fun _ => false⟩
      [("examples/a.lua", "TaskDefinition")] "examples/a.lua" =
      ⟨false, [("examples/a.lua", "TaskDefinition")],
       ["❌ Error converting " ++ "examples/a.lua"]⟩ :=
  backup_failure_atomic ⟨fun _ => false, fun _ => true, fun _ => false⟩
    [("examples/a.lua", "TaskDefinition")] "examples/a.lua" "TaskDefinition"
    (by decide) (by decide) (by decide) (by decide)

/-- C7: whatever the error environment does, the run always completes:
converted plus failed equals the number of candidates, and whenever
there are candidates the final summary block is printed. -/
theorem per_file_error_containment (eo : ErrOracle) (fs : FS) :
    (main eo fs).converted + (main eo fs).failed = (main eo fs).total ∧
    (main eo fs).total = (detect eo fs).length ∧
    (detect eo fs ≠ [] →
      summaryBlock (main eo fs).converted (main eo fs).failed
        (main eo fs).total ∈ (main eo fs).log) := by
  by_cases h : detect eo fs = []
  · simp [main, h]
  · rw [main_of_nonempty eo fs h]
    refine ⟨convertAll_counts eo (detect eo fs) fs, rfl, fun _ => ?_⟩
    simp

/-- Witness for C7 on a one-candidate run. -/
theorem per_file_error_containment_witness :
    (main noErr [("examples/a.lua", "TaskDefinition")]).converted +
      (main noErr [("examples/a.lua", "TaskDefinition")]).failed =
      (main noErr [("examples/a.lua", "TaskDefinition")]).total ∧
    summaryBlock (main noErr [("examples/a.lua", "TaskDefinition")]).converted
      (main noErr [("examples/a.lua", "TaskDefinition")]).failed
      (main noErr [("examples/a.lua", "TaskDefinition")]).total ∈
      (main noErr [("examples/a.lua", "TaskDefinition")]).log :=
  ⟨(per_file_error_containment noErr [("examples/a.lua", "TaskDefinition")]).1,
   (per_file_error_containment noErr
     [("examples/a.lua", "TaskDefinition")]).2.2 (by decide)⟩

/-- C8: a scan finding zero qualifying files performs no filesystem
writes, reports zero converted and zero failed, and prints the
no-files-need-conversion message. -/
theorem empty_run_behavior (eo : ErrOracle) (fs : FS)
    (h : detect eo fs = []) :
    main eo fs =
      ⟨0, 0, 0, fs,
       ["🧹 Starting mass conversion to Modern DSL...",
        "📝 Found 0 files to convert",
        "✅ No files need conversion!"]⟩ := by
  simp [main, h]
  rfl

/-- Witness for C8 on the empty directory. -/
theorem empty_run_behavior_witness :
    main noErr [] =
      ⟨0, 0, 0, [],
       ["🧹 Starting mass conversion to Modern DSL...",
        "📝 Found 0 files to convert",
        "✅ No files need conversion!"]⟩ :=
  empty_run_behavior noErr [] (by decide)

/-- C9: a file containing the snake case marker "task_definition" and
"task(" but not "TaskDefinition" is selected by the detector yet
skipped as already modern by the conversion step: True return, no
backup, no rewrite. -/
theorem marker_asymmetry_skip (eo : ErrOracle) (fs : FS) (p content : String)
    (h0 : eo.readFails p = false)
    (h1 : strHasPre "examples/" p = true)
    (h2 : strHasSuf ".lua" p = true)
    (hr : FS.read fs p = some content)
    (h4 : containsSub content "task_definition" = true)
    (h5 : containsSub content "task(" = true)
    (h6 : containsSub content "TaskDefinition" = false) :
    p ∈ detect eo fs ∧
    convert_file_to_modern_dsl eo fs p =
      ⟨true, fs, ["✅ Already modern: " ++ p]⟩ := by
  have hm : alreadyModern content = true := by simp [alreadyModern, h5, h6]
  constructor
  · rw [mem_detect]
    refine ⟨FS.read_some_mem hr, ?_⟩
    unfold isCandidate
    simp [h1, h2, h0, hr, h4]
  · unfold convert_file_to_modern_dsl
    simp [h0, hr, hm]

/-- Witness for C9. -/
theorem marker_asymmetry_skip_witness :
    "examples/a.lua" ∈
      detect noErr [("examples/a.lua", "task_definition task(")] ∧
    convert_file_to_modern_dsl noErr
      [("examples/a.lua", "task_definition task(")] "examples/a.lua" =
      ⟨true, [("examples/a.lua", "task_definition task(")],
       ["✅ Already modern: " ++ "examples/a.lua"]⟩ :=
  marker_asymmetry_skip noErr [("examples/a.lua", "task_definition task(")]
    "examples/a.lua" "task_definition task(" (by decide) (by decide)
    (by decide) (by decide) (by decide) (by decide) (by decide)

/-- C10 counterexample: a marker-free file sitting at a candidate's
backup path is overwritten by the run, refuting the claim that every
file containing neither marker is left byte-for-byte unchanged. -/
theorem frame_claim_counterexample :
    containsSub "precious" "TaskDefinition" = false ∧
    containsSub "precious" "task_definition" = false ∧
    FS.read [("examples/a.lua", "TaskDefinition"),
             ("examples/a.lua.backup", "precious")] "examples/a.lua.backup" =
      some "precious" ∧
    FS.read (main noErr [("examples/a.lua", "TaskDefinition"),
             ("examples/a.lua.backup", "precious")]).fs
      "examples/a.lua.backup" = some "TaskDefinition" := by
  decide

/-- C10 amended: a run writes only to detected candidate paths and
their backup siblings: every path that is neither a candidate nor the
backup sibling of a candidate reads unchanged, and in particular every
path outside the scanned root is never written. -/
theorem frame_property_amended (eo : ErrOracle) (fs : FS) (q : String) :
    ((q ∉ detect eo fs ∧ ∀ p ∈ detect eo fs, q ≠ p ++ ".backup") →
      FS.read (main eo fs).fs q = FS.read fs q) ∧
    (strHasPre "examples/" q = false →
      FS.read (main eo fs).fs q = FS.read fs q) := by
  have core : (q ∉ detect eo fs ∧ (∀ p ∈ detect eo fs, q ≠ p ++ ".backup")) →
      FS.read (main eo fs).fs q = FS.read fs q := by
    rintro ⟨hq, hb⟩
    by_cases h : detect eo fs = []
    · simp [main, h]
    · rw [main_of_nonempty eo fs h]
      exact convertAll_frame eo (detect eo fs) fs q
        (fun p hp => ⟨fun he => hq (he ▸ hp), hb p hp⟩)
  refine ⟨core, fun hpre => core ⟨?_, ?_⟩⟩
  · intro hq
    rw [detect_hasPre hq] at hpre
    exact Bool.false_ne_true hpre.symm
  · intro p hp he
    have hb := strHasPre_append "examples/" p ".backup" (detect_hasPre hp)
    rw [← he] at hb
    rw [hb] at hpre
    exact Bool.false_ne_true hpre.symm

/-- Witness for the amended C10: a marker-free file elsewhere in the
tree reads unchanged after the run. -/
theorem frame_property_amended_witness :
    FS.read (main noErr [("examples/a.lua", "TaskDefinition"),
      ("notes.txt", "hello")]).fs "notes.txt" =
      FS.read [("examples/a.lua", "TaskDefinition"),
        ("notes.txt", "hello")] "notes.txt" :=
  (frame_property_amended noErr
    [("examples/a.lua", "TaskDefinition"), ("notes.txt", "hello")]
    "notes.txt").1 ⟨by decide, by decide⟩

end MassConvert
